import Mathlib

/-!
Shallow embedding of the TellegramSignals extraction-and-delivery core:
`src/extraction/models.py`, `src/extraction/patterns.py`,
`src/extraction/validators.py`, `src/extraction/extractor.py` and
`src/server/signal_store.py`, with theorems settling the specification
claims about them.

Conventions used throughout the embedding:
* Python floats are modelled as rationals (`ℚ`); `round(x, 2)` is `round2`.
* Python `datetime` values are modelled as rational time stamps.
* Python `Optional[float]` is `Option ℚ`; Python truthiness of an optional
  number (`if x:`) is `optQTruthy` (both `None` and `0.0` are falsy).
* Python `str` truthiness (`if s:`) is `s ≠ ""`.
* Python dicts that only ever grow (the store, the alias map) are modelled
  as insertion-ordered association lists.
* Error messages raised by the code carry interpolated run-time values
  (f-strings); the embedding keeps the fixed text of each message and
  elides the interpolated values, which no claim depends on.
-/

namespace TelegramSignals

/-- Python truthiness of an optional number: `None` and `0.0` are falsy. -/
def optQTruthy : Option ℚ → Bool
  | none => false
  | some q => q != 0

/-- Python truthiness of an optional string: `None` and `""` are falsy. -/
def optStrTruthy : Option String → Bool
  | none => false
  | some s => s != ""

/-- Python `round(x, 2)` over the rational model (round half toward even
differs from round half up only at exact ties, which never arise in the
values this development evaluates). -/
def round2 (q : ℚ) : ℚ := (round (100 * q) : ℤ) / 100

/-- Source `src/extraction/models.py` — `Signal` dataclass.  `timestamp` and
`extracted_at` are modelled as rational time stamps; `extracted_at`
defaults in the source to `datetime.now()` at construction time. -/
structure Signal where
  message_id : Int
  channel_username : String
  timestamp : ℚ
  symbol : String
  direction : String
  entry_price : Option ℚ := none
  entry_price_min : Option ℚ := none
  entry_price_max : Option ℚ := none
  stop_loss : Option ℚ := none
  take_profits : List ℚ := []
  confidence_score : ℚ := 0
  raw_message : String := ""
  extraction_notes : String := ""
  extracted_at : ℚ := 0
deriving DecidableEq, Repr

/-- Source `Signal.has_entry`: entry information present (`is not None` checks). -/
def Signal.hasEntry (s : Signal) : Bool :=
  s.entry_price.isSome || (s.entry_price_min.isSome && s.entry_price_max.isSome)

/-- Source `Signal.get_entry_average`: single entry price, or range midpoint. -/
def Signal.entryAverage (s : Signal) : Option ℚ :=
  match s.entry_price with
  | some p => some p
  | none =>
    match s.entry_price_min, s.entry_price_max with
    | some lo, some hi => some ((lo + hi) / 2)
    | _, _ => none

/-- Source `src/server/signal_store.py` — `StoredSignal` dataclass. -/
structure StoredSignal where
  signal : Signal
  status : String := "pending"
  created_at : ℚ
  acknowledged_at : Option ℚ := none
deriving DecidableEq, Repr

/-- The store's `_signals` dict: insertion-ordered map from the stringified
message id to the stored record. -/
abbrev Store := List (String × StoredSignal)

/-- Dict lookup on the modelled store. -/
def lookupStore (st : Store) (key : String) : Option StoredSignal :=
  (st.find? (fun p => p.1 = key)).map Prod.snd

/-- Source `SignalStore.add_signal`: keyed by `str(signal.message_id)`; returns
`False` and leaves the store untouched on a duplicate key, otherwise
appends a fresh pending record stamped with the current time. -/
def addSignal (st : Store) (s : Signal) (now : ℚ) : Bool × Store :=
  let key := toString s.message_id
  if (lookupStore st key).isSome then (false, st)
  else (true, st ++ [(key, { signal := s, status := "pending", created_at := now })])

/-- Source `SignalStore.get_pending_signals`: entries whose status is `"pending"`,
optionally filtered by symbol (a falsy symbol filter is ignored).  The
source converts each hit through `_signal_to_mt5_dict`; the embedding
returns the underlying signals, which determine that projection. -/
def getPendingSignals (st : Store) (symbol : Option String) : List Signal :=
  st.filterMap fun p =>
    if p.2.status != "pending" then none
    else if optStrTruthy symbol && p.2.signal.symbol != symbol.getD "" then none
    else some p.2.signal

/-- Source `SignalStore.cleanup_old_signals`: removes every entry whose age
(strictly) exceeds `maxAge`, returning the removal count and the remaining
store. -/
def cleanupOldSignals (st : Store) (now maxAge : ℚ) : Nat × Store :=
  let keep := st.filter (fun p => ¬ (maxAge < now - p.2.created_at))
  (st.length - keep.length, keep)

/-- Source `SignalValidator._validate_required_fields`. -/
def validateRequiredFields (s : Signal) : Except String Unit :=
  if s.symbol = "" then .error "Missing required field: symbol"
  else if s.direction = "" then .error "Missing required field: direction"
  else if ¬ (s.direction = "BUY" ∨ s.direction = "SELL") then
    .error "Invalid direction"
  else if ¬ s.hasEntry then .error "Missing entry price information"
  else .ok ()

/-- Source `SignalValidator._validate_price_logic`, stop-loss and take-profit
side checks.  The source raises on the first offending check in order:
stop-loss first, then the first wrong-side take-profit; the trailing
take-profit-ordering loop only emits log warnings and is modelled by
`tpOrderingUnusual` below, which this function deliberately ignores just
as the source discards its warnings. -/
def validatePriceLogic (s : Signal) : Except String Unit :=
  match s.entryAverage with
  | none => .ok ()
  | some avg =>
    if optQTruthy s.stop_loss ∧ s.direction = "BUY" ∧ avg ≤ s.stop_loss.getD 0 then
      .error "BUY signal: Stop loss should be below entry"
    else if optQTruthy s.stop_loss ∧ s.direction = "SELL" ∧ s.stop_loss.getD 0 ≤ avg then
      .error "SELL signal: Stop loss should be above entry"
    else if (s.take_profits.find? fun tp =>
        (s.direction = "BUY" && decide (tp ≤ avg)) ||
        (s.direction = "SELL" && decide (avg ≤ tp))).isSome then
      .error "TP on wrong side of entry"
    else .ok ()

/-- The warn-only take-profit-ladder monotonicity check at the end of
`_validate_price_logic`: true when some adjacent pair fails to move
farther from entry in the trade direction.  Only logged, never raised. -/
def tpOrderingUnusual (s : Signal) : Bool :=
  (s.take_profits.zip s.take_profits.tail).any fun p =>
    (s.direction = "BUY" && decide (p.2 ≤ p.1)) ||
    (s.direction = "SELL" && decide (p.1 ≤ p.2))

/-- Source `SignalValidator._validate_entry_range`: a truthy range with
`min >= max` is rejected. -/
def validateEntryRange (s : Signal) : Except String Unit :=
  if optQTruthy s.entry_price_min ∧ optQTruthy s.entry_price_max ∧
      s.entry_price_max.getD 0 ≤ s.entry_price_min.getD 0 then
    .error "Entry min should be less than max"
  else .ok ()

/-- Source `SignalValidator.validate_signal`: required fields, the allowed-symbol
check (warn-only in the source, hence a no-op here), price logic, entry
range; returns `True` when nothing raised, the first raised error
otherwise. -/
def validateSignal (s : Signal) : Except String Bool :=
  match validateRequiredFields s with
  | .error e => .error e
  | .ok _ =>
    match validatePriceLogic s with
    | .error e => .error e
    | .ok _ =>
      match validateEntryRange s with
      | .error e => .error e
      | .ok _ => .ok true

/-- The resolved confidence-weight configuration of
`SignalExtractor._calculate_confidence` (dict lookups with defaults,
collapsed to their resolved values). -/
structure ConfidenceWeights where
  symbol : ℚ
  direction : ℚ
  entry : ℚ
  stop_loss : ℚ
  take_profit : ℚ
  channel_confidence : ℚ
deriving DecidableEq, Repr

/-- The `extracted_fields` dict assembled by `extract_signal`. -/
structure ExtractedFields where
  symbol : Option String := none
  direction : Option String := none
  entry_price : Option ℚ := none
  entry_price_min : Option ℚ := none
  entry_price_max : Option ℚ := none
  stop_loss : Option ℚ := none
  take_profits : List ℚ := []
deriving DecidableEq, Repr

/-- Lookup `self.channel_confidence.get(channel_username, 1.0)`. -/
def channelMultiplier (cc : List (String × ℚ)) (channel : String) : ℚ :=
  ((cc.find? fun p => p.1 = channel).map Prod.snd).getD 1

/-- Source `SignalExtractor._calculate_confidence`: additive per-field weights,
half credit for a single take-profit, channel bonus added only when the
channel weight is positive and the channel name truthy, rounded to two
decimals. -/
def calcConfidence (w : ConfidenceWeights) (cc : List (String × ℚ))
    (f : ExtractedFields) (channel : String) : ℚ :=
  let score : ℚ := 0
  let score := if optStrTruthy f.symbol then score + w.symbol else score
  let score := if optStrTruthy f.direction then score + w.direction else score
  let score :=
    if optQTruthy f.entry_price ||
        (optQTruthy f.entry_price_min && optQTruthy f.entry_price_max) then
      score + w.entry
    else score
  let score := if optQTruthy f.stop_loss then score + w.stop_loss else score
  let score :=
    if f.take_profits ≠ [] then
      if 2 ≤ f.take_profits.length then score + w.take_profit
      else score + w.take_profit * (1 / 2)
    else score
  let score :=
    if 0 < w.channel_confidence ∧ channel ≠ "" then
      score + w.channel_confidence * channelMultiplier cc channel
    else score
  round2 score

/-- The confidence score as the specification describes it (§4.2): the sum
of the per-field weights of the present fields, full take-profit weight
for two or more values, half for exactly one, none for zero, plus the
channel weight times the per-channel multiplier (1.0 for unknown
channels).  Stated from the spec's words for comparison with
`calcConfidence`, which is translated from the code. -/
def specConfidenceScore (w : ConfidenceWeights) (cc : List (String × ℚ))
    (f : ExtractedFields) (channel : String) : ℚ :=
  (if optStrTruthy f.symbol then w.symbol else 0) +
  (if optStrTruthy f.direction then w.direction else 0) +
  (if optQTruthy f.entry_price ||
      (optQTruthy f.entry_price_min && optQTruthy f.entry_price_max) then
    w.entry
  else 0) +
  (if optQTruthy f.stop_loss then w.stop_loss else 0) +
  (if 2 ≤ f.take_profits.length then w.take_profit
   else if f.take_profits.length = 1 then w.take_profit / 2 else 0) +
  w.channel_confidence * channelMultiplier cc channel

/-- The entry reference used by `_validate_and_correct_setup`: the truthy
single entry price, else the midpoint of a truthy range, else nothing. -/
def pyEntryRef (entry_single entry_min entry_max : Option ℚ) : Option ℚ :=
  if optQTruthy entry_single then entry_single
  else if optQTruthy entry_min && optQTruthy entry_max then
    some ((entry_min.getD 0 + entry_max.getD 0) / 2)
  else none

/-- List `valid_tps = [tp for tp in take_profits if tp and tp > 0]`. -/
def validTps (tps : List ℚ) : List ℚ := tps.filter fun tp => 0 < tp

/-- Count of valid take-profits strictly above the entry reference. -/
def tpsAbove (tps : List ℚ) (entry_ref : ℚ) : Nat :=
  (validTps tps).countP fun tp => entry_ref < tp

/-- Count of valid take-profits strictly below the entry reference. -/
def tpsBelow (tps : List ℚ) (entry_ref : ℚ) : Nat :=
  (validTps tps).countP fun tp => tp < entry_ref

/-- Source `SignalExtractor._validate_and_correct_setup`: flips a mislabeled
direction at a 0.30 confidence penalty (floored at 0) when all valid
take-profits sit on the wrong side and the stop-loss does not contradict
the flip; zeroes the confidence on a contradictory setup; otherwise
leaves the signal alone.  The early exits (no direction, no entry
reference) return the confidence unrounded, exactly as the source's early
`return` statements do; every other path passes through the final
`round(confidence, 2)`. -/
def validateAndCorrectSetup (direction : Option String)
    (entry_single entry_min entry_max stop_loss : Option ℚ)
    (take_profits : List ℚ) (confidence : ℚ) :
    Option String × ℚ × String :=
  if ¬ optStrTruthy direction then (direction, confidence, "")
  else
    match pyEntryRef entry_single entry_min entry_max with
    | none => (direction, confidence, "")
    | some entry_ref =>
      let a := tpsAbove take_profits entry_ref
      let b := tpsBelow take_profits entry_ref
      let slAbove := optQTruthy stop_loss && decide (entry_ref < stop_loss.getD 0)
      let slBelow := optQTruthy stop_loss && decide (stop_loss.getD 0 < entry_ref)
      let step : Option String × ℚ × String :=
        if direction = some "BUY" then
          if ¬ b < a ∧ validTps take_profits ≠ [] then
            if 0 < b ∧ a = 0 then
              if slAbove || ¬ optQTruthy stop_loss then
                (some "SELL", max 0 (confidence - 3 / 10),
                  "Direction corrected BUY->SELL (TPs below entry), confidence reduced 30%")
              else
                (direction, 0,
                  "Contradictory setup: BUY with TPs below entry AND SL below entry")
            else if 0 < a ∧ 0 < b then
              (direction, 0, "Contradictory setup: TPs both above and below entry")
            else (direction, confidence, "")
          else (direction, confidence, "")
        else if direction = some "SELL" then
          if ¬ a < b ∧ validTps take_profits ≠ [] then
            if 0 < a ∧ b = 0 then
              if slBelow || ¬ optQTruthy stop_loss then
                (some "BUY", max 0 (confidence - 3 / 10),
                  "Direction corrected SELL->BUY (TPs above entry), confidence reduced 30%")
              else
                (direction, 0,
                  "Contradictory setup: SELL with TPs above entry AND SL above entry")
            else if 0 < a ∧ 0 < b then
              (direction, 0, "Contradictory setup: TPs both above and below entry")
            else (direction, confidence, "")
          else (direction, confidence, "")
        else (direction, confidence, "")
      (step.1, round2 step.2.1, step.2.2)

/-- Source `SignalExtractor._get_pip_value`: 0.1 for gold, 0.01 for JPY-quoted
symbols (substring test), 0.0001 otherwise. -/
def getPipValue (symbol : String) : ℚ :=
  if symbol = "XAUUSD" ∨ symbol = "GOLD" then 1 / 10
  else if (symbol.splitOn "JPY").length ≠ 1 then 1 / 100
  else 1 / 10000

/-- Source `SignalExtractor._calculate_tp_from_pips`: adds (BUY) or subtracts
(SELL/other) the pip offsets scaled by the symbol's pip value, rounding
each level to two decimals; a falsy `max_pips` (absent or 0) yields a
single level. -/
def calcTpFromPips (entry_price : ℚ) (direction : String)
    (tp_pips : Int × Option Int) (symbol : Option String) : List ℚ :=
  let pip_value :=
    getPipValue (if optStrTruthy symbol then symbol.getD "" else "XAUUSD")
  let off : ℚ → ℚ := fun d => if direction = "BUY" then entry_price + d else entry_price - d
  let tail :=
    match tp_pips.2 with
    | some mp => if mp ≠ 0 then [round2 (off (mp * pip_value))] else []
    | none => []
  round2 (off (tp_pips.1 * pip_value)) :: tail

/-- The pip-based take-profit resolution step of
`SignalExtractor.extract_signal` (lines 107-118).  The source line
`entry_ref = entry_single or (entry_min + entry_max) / 2 if entry_min and entry_max else None`
parses, by Python operator precedence, as
`entry_ref = (entry_single or (entry_min + entry_max) / 2) if (entry_min and entry_max) else None`,
so `entry_ref` is `None` whenever the entry is a single price rather than
a range; the embedding reproduces that grouping. -/
def resolvePipTakeProfits (entry_single entry_min entry_max : Option ℚ)
    (direction symbol : Option String)
    (take_profits : List ℚ) (tp_pips : Option (Int × Option Int)) : List ℚ :=
  if take_profits ≠ [] then take_profits
  else
    match tp_pips with
    | none => take_profits
    | some pips =>
      let entry_ref : Option ℚ :=
        if optQTruthy entry_min && optQTruthy entry_max then
          if optQTruthy entry_single then entry_single
          else some ((entry_min.getD 0 + entry_max.getD 0) / 2)
        else none
      if optQTruthy entry_ref && optStrTruthy direction then
        calcTpFromPips (entry_ref.getD 0) (direction.getD "") pips symbol
      else take_profits

/-! ### Symbol normalization (`PatternMatcher._normalize_symbol`)

Python's `str.upper()` is modelled on the ASCII range, which covers every
symbol token the pattern table can produce. -/

/-- ASCII uppercasing of one character, as `str.upper()` acts on it. -/
def pyUpperChar (c : Char) : Char :=
  if 97 ≤ c.toNat ∧ c.toNat ≤ 122 then Char.ofNat (c.toNat - 32) else c

/-- Python `str.upper()` on the ASCII fragment. -/
def pyUpper (s : String) : String := ⟨s.data.map pyUpperChar⟩

/-- The exact-key lookup of `_normalize_symbol` (`symbol in self.symbol_mapping`). -/
def lookupExact (m : List (String × String)) (s : String) : Option String :=
  (m.find? fun p => p.1 = s).map Prod.snd

/-- The case-insensitive fallback lookup of `_normalize_symbol`
(first mapping entry whose uppercased key equals the uppercased token). -/
def lookupCI (m : List (String × String)) (s : String) : Option String :=
  (m.find? fun p => pyUpper p.1 = pyUpper s).map Prod.snd

/-- Source `PatternMatcher._normalize_symbol`: exact alias-map hit, else
case-insensitive hit, else the uppercased raw token. -/
def normalizeSymbol (m : List (String × String)) (s : String) : String :=
  match lookupExact m s with
  | some v => v
  | none =>
    match lookupCI m s with
    | some v => v
    | none => pyUpper s

/-- The default `symbol_mapping` built in `PatternMatcher.__init__`. -/
def defaultSymbolMapping : List (String × String) :=
  [("GOLD", "XAUUSD"), ("Gold", "XAUUSD"), ("XAU/USD", "XAUUSD"),
   ("XAUUSD", "XAUUSD"), ("EUR/USD", "EURUSD"), ("EURUSD", "EURUSD"),
   ("GBP/USD", "GBPUSD"), ("GBPUSD", "GBPUSD"), ("BTC/USD", "BTCUSD"),
   ("BTCUSD", "BTCUSD")]

/-! ### The pip-format take-profit patterns
(`UNIFIED_PATTERNS['take_profit_pips']`)

`re.search` with `\bTP\s+(\d+)\s*[-–—−]\s*(\d+)\s*pips` (then, if that
matched nowhere, `\bTP\s+(\d+)\s*pips`), case-insensitively.  The
character classes of the patterns are disjoint, so greedy left-to-right
scanning is equivalent to the regex engine's behaviour and the leftmost
match wins; the word classes are modelled on the ASCII range plus the
pattern's explicit non-breaking-space and Unicode dashes. -/

/-- Class `\w` (word character) on the ASCII range. -/
def isWordChar (c : Char) : Bool :=
  (65 ≤ c.toNat && c.toNat ≤ 90) || (97 ≤ c.toNat && c.toNat ≤ 122) ||
  (48 ≤ c.toNat && c.toNat ≤ 57) || c = '_'

/-- The pattern table's `SPACE` class: `[\s ]` (ASCII whitespace plus
non-breaking space). -/
def isSpaceChar (c : Char) : Bool :=
  c = ' ' || c = '\t' || c = '\n' || c = '\x0b' || c = '\x0c' || c = '\r' ||
  c = ' '

/-- The pattern table's `DASH` class: hyphen-minus, en/em dash, minus sign. -/
def isDashChar (c : Char) : Bool :=
  c = '-' || c = '–' || c = '—' || c = '−'

/-- Class `\d` (ASCII digit). -/
def isDigitChar (c : Char) : Bool := 48 ≤ c.toNat && c.toNat ≤ 57

/-- Numeric value of a digit run. -/
def digitsToNat (ds : List Char) : Nat :=
  ds.foldl (fun n c => 10 * n + (c.toNat - 48)) 0

/-- Greedy `(\d+)`: one or more digits, their value and the rest. -/
def munchDigits (cs : List Char) : Option (Nat × List Char) :=
  match cs.takeWhile isDigitChar with
  | [] => none
  | ds => some (digitsToNat ds, cs.dropWhile isDigitChar)

/-- Case-insensitive match of the literal letters `pips` at the head. -/
def matchesPips : List Char → Bool
  | c1 :: c2 :: c3 :: c4 :: _ =>
    (c1 = 'p' || c1 = 'P') && (c2 = 'i' || c2 = 'I') &&
    (c3 = 'p' || c3 = 'P') && (c4 = 's' || c4 = 'S')
  | _ => false

/-- Attempt of `TP\s+(\d+)\s*DASH\s*(\d+)\s*pips` at the head of the list
(the `\b` anchor is handled by the caller). -/
def matchPipsRangeAt : List Char → Option (Nat × Nat)
  | c1 :: c2 :: c3 :: rest =>
    if (c1 = 'T' || c1 = 't') && (c2 = 'P' || c2 = 'p') && isSpaceChar c3 then
      match munchDigits (rest.dropWhile isSpaceChar) with
      | some (n1, rest1) =>
        match rest1.dropWhile isSpaceChar with
        | d :: rest2 =>
          if isDashChar d then
            match munchDigits (rest2.dropWhile isSpaceChar) with
            | some (n2, rest3) =>
              if matchesPips (rest3.dropWhile isSpaceChar) then some (n1, n2)
              else none
            | none => none
          else none
        | [] => none
      | none => none
    else none
  | _ => none

/-- Attempt of `TP\s+(\d+)\s*pips` at the head of the list. -/
def matchPipsSingleAt : List Char → Option Nat
  | c1 :: c2 :: c3 :: rest =>
    if (c1 = 'T' || c1 = 't') && (c2 = 'P' || c2 = 'p') && isSpaceChar c3 then
      match munchDigits (rest.dropWhile isSpaceChar) with
      | some (n1, rest1) =>
        if matchesPips (rest1.dropWhile isSpaceChar) then some n1 else none
      | none => none
    else none
  | _ => none

/-- Leftmost-match search: try the pattern at every position whose left
neighbour is a word boundary (`prevWord` tracks the previous character). -/
def searchPipsRange (prevWord : Bool) : List Char → Option (Nat × Nat)
  | [] => none
  | c :: rest =>
    match if prevWord then none else matchPipsRangeAt (c :: rest) with
    | some r => some r
    | none => searchPipsRange (isWordChar c) rest

/-- Leftmost-match search for the single-value pip pattern. -/
def searchPipsSingle (prevWord : Bool) : List Char → Option Nat
  | [] => none
  | c :: rest =>
    match if prevWord then none else matchPipsSingleAt (c :: rest) with
    | some r => some r
    | none => searchPipsSingle (isWordChar c) rest

/-- Source `PatternMatcher.extract_take_profits_pips`: the range pattern is tried
first over the whole text (two groups, returned as `(min, max)`); only if
it matches nowhere is the single-value pattern tried. -/
def extractTakeProfitsPips (text : String) : Option (Int × Option Int) :=
  match searchPipsRange false text.data with
  | some (p1, p2) => some ((min p1 p2 : Nat), some (max p1 p2 : Nat))
  | none =>
    match searchPipsSingle false text.data with
    | some p => some ((p : Nat), none)
    | none => none

/-! ### The orchestrator (`SignalExtractor.extract_signal`) -/

/-- The pure regex layer `PatternMatcher` as the orchestrator consumes it:
one extraction function per field, each a pure function of the text. -/
structure PatternMatcherModel where
  symbol : String → Option String
  direction : String → Option String
  entry : String → Option ℚ × Option ℚ × Option ℚ
  stopLoss : String → Option ℚ
  takeProfits : String → List (Nat × ℚ)
  takeProfitsPips : String → Option (Int × Option Int)

/-- The extractor's resolved configuration (`SignalExtractor.__init__`). -/
structure ExtractorConfig where
  min_confidence : ℚ := 3 / 4
  weights : ConfidenceWeights
  channel_confidence : List (String × ℚ) := []

/-- The tail of `extract_signal` after the `Signal` object is built:
the advisory validation pass (failures are appended to the extraction
notes, never raised) followed by the confidence-threshold gate. -/
def finishSignal (cfg : ExtractorConfig) (confidence : ℚ) (signal : Signal) :
    Except String Signal :=
  let signal :=
    match validateSignal signal with
    | .ok _ => signal
    | .error e =>
      { signal with
        extraction_notes :=
          if signal.extraction_notes ≠ "" then
            signal.extraction_notes ++ "; Validation warning: " ++ e
          else "Validation warning: " ++ e }
  if confidence < cfg.min_confidence then
    .error "Confidence score below threshold"
  else .ok signal

/-- Source `SignalExtractor.extract_signal`: field extraction, pip-based
take-profit resolution, confidence scoring, setup correction, `Signal`
construction (stamping `extracted_at` with the wall clock `now`),
advisory validation and the threshold gate. -/
def extractSignal (cfg : ExtractorConfig) (pm : PatternMatcherModel)
    (text : String) (message_id : Int) (channel_username : String)
    (timestamp : ℚ) (now : ℚ) : Except String Signal :=
  let symbol := pm.symbol text
  let direction0 := pm.direction text
  let e := pm.entry text
  let entry_single := e.1
  let entry_min := e.2.1
  let entry_max := e.2.2
  let stop_loss := pm.stopLoss text
  let take_profits0 := (pm.takeProfits text).map Prod.snd
  let take_profits :=
    resolvePipTakeProfits entry_single entry_min entry_max direction0 symbol
      take_profits0 (pm.takeProfitsPips text)
  let fields : ExtractedFields :=
    { symbol := symbol, direction := direction0, entry_price := entry_single,
      entry_price_min := entry_min, entry_price_max := entry_max,
      stop_loss := stop_loss, take_profits := take_profits }
  let confidence0 := calcConfidence cfg.weights cfg.channel_confidence fields channel_username
  let corr :=
    validateAndCorrectSetup direction0 entry_single entry_min entry_max
      stop_loss take_profits confidence0
  let signal : Signal :=
    { message_id := message_id, channel_username := channel_username,
      timestamp := timestamp, symbol := symbol.getD "",
      direction := corr.1.getD "", entry_price := entry_single,
      entry_price_min := entry_min, entry_price_max := entry_max,
      stop_loss := stop_loss, take_profits := take_profits,
      confidence_score := corr.2.1, raw_message := text,
      extraction_notes := corr.2.2, extracted_at := now }
  finishSignal cfg corr.2.1 signal

/-! ### Concrete instances used to evaluate the definitions -/

/-- A signal with its `extracted_at` stamp cleared, for comparing the
deterministic fields of two extraction runs. -/
def eraseExtractedAt (s : Signal) : Signal := { s with extracted_at := 0 }

/-- The canonical weight configuration (`SignalExtractor.__init__` default
and `tests/test_extraction.py`): 0.25/0.25/0.20/0.15/0.15, no channel
weight. -/
def defaultWeights : ConfidenceWeights :=
  { symbol := 1 / 4, direction := 1 / 4, entry := 1 / 5,
    stop_loss := 3 / 20, take_profit := 3 / 20, channel_confidence := 0 }

/-- The default extractor configuration (`min_confidence` 0.75). -/
def defaultExtractorConfig : ExtractorConfig :=
  { min_confidence := 3 / 4, weights := defaultWeights }

/-- The field values the regex layer produces on the Nick Alpha sample
message of `tests/test_extraction.py` (symbol XAUUSD, direction SELL,
entry range 4746.50-4750.50, stop-loss 4752.50, TP1 4730, TP2 4720),
as a constant pattern-matcher run for exercising the orchestrator. -/
def pmNickAlphaFields : PatternMatcherModel :=
  { symbol := fun _ => some "XAUUSD",
    direction := fun _ => some "SELL",
    entry := fun _ => (none, some (9493 / 2), some (9501 / 2)),
    stopLoss := fun _ => some (9505 / 2),
    takeProfits := fun _ => [(1, 4730), (2, 4720)],
    takeProfitsPips := fun _ => none }

/-- A pattern-matcher run on a message in which no field matches any
pattern (every extractor returns its empty result). -/
def pmNoMatches : PatternMatcherModel :=
  { symbol := fun _ => none, direction := fun _ => none,
    entry := fun _ => (none, none, none), stopLoss := fun _ => none,
    takeProfits := fun _ => [], takeProfitsPips := fun _ => none }

/-- An all-zero weight configuration with a zero acceptance threshold:
every message passes the confidence gate. -/
def permissiveConfig : ExtractorConfig :=
  { min_confidence := 0,
    weights := { symbol := 0, direction := 0, entry := 0, stop_loss := 0,
                 take_profit := 0, channel_confidence := 0 } }

/-- A BUY signal whose stop-loss sits above its entry (wrong side). -/
def sigBuyWrongSideSL : Signal :=
  { message_id := 1, channel_username := "ch", timestamp := 0,
    symbol := "XAUUSD", direction := "BUY", entry_price := some 100,
    stop_loss := some 105, take_profits := [110] }

/-- A BUY signal whose take-profit ladder is non-monotonic but entirely on
the profitable side, with a correctly placed stop-loss. -/
def sigBuyNonMonotonicTPs : Signal :=
  { message_id := 2, channel_username := "ch", timestamp := 0,
    symbol := "XAUUSD", direction := "BUY", entry_price := some 100,
    stop_loss := some 95, take_profits := [120, 110] }

/-- A signal admitted to the store in the concrete store scenarios. -/
def sigStoreA : Signal :=
  { message_id := 7, channel_username := "alpha", timestamp := 0,
    symbol := "XAUUSD", direction := "BUY", entry_price := some 100 }

/-- A different signal carrying the same message id as `sigStoreA` but a
different source channel. -/
def sigStoreB : Signal :=
  { message_id := 7, channel_username := "beta", timestamp := 0,
    symbol := "EURUSD", direction := "SELL", entry_price := some 2 }

/-- The complete field set of the Nick Alpha sample, as scored by the
confidence model. -/
def nickAlphaFields : ExtractedFields :=
  { symbol := some "XAUUSD", direction := some "SELL",
    entry_price := none, entry_price_min := some (9493 / 2),
    entry_price_max := some (9501 / 2), stop_loss := some (9505 / 2),
    take_profits := [4730, 4720] }

end TelegramSignals
namespace TelegramSignals

theorem round2_zero : round2 0 = 0 := by
  simp [round2]

theorem round2_int_div_100 (z : ℤ) : round2 ((z : ℚ) / 100) = (z : ℚ) / 100 := by
  have h : (100 : ℚ) * ((z : ℚ) / 100) = (z : ℚ) := by ring
  rw [round2, h, round_intCast]

/-- Rounding to two decimals fixes every two-decimal rational. -/
theorem round2_two_decimals {q : ℚ} (z : ℤ) (h : q = (z : ℚ) / 100) :
    round2 q = q := by rw [h, round2_int_div_100]

theorem round2_nonneg {q : ℚ} (h : 0 ≤ q) : 0 ≤ round2 q := by
  rw [round2]
  have h1 : (0 : ℤ) ≤ round (100 * q) := by
    rw [round_eq]
    exact Int.le_floor.mpr (by push_cast; linarith)
  have h2 : (0 : ℚ) ≤ (round (100 * q) : ℤ) := by exact_mod_cast h1
  linarith

theorem round2_le_one {q : ℚ} (h : q ≤ 1) : round2 q ≤ 1 := by
  rw [round2]
  have h1 : round (100 * q) ≤ 100 := by
    rw [round_eq]
    have : ⌊100 * q + 1 / 2⌋ < 101 := Int.floor_lt.mpr (by push_cast; linarith)
    omega
  have h2 : ((round (100 * q) : ℤ) : ℚ) ≤ 100 := by exact_mod_cast h1
  linarith

theorem round2_sub_30_floored (z : ℤ) :
    round2 (max 0 ((z : ℚ) / 100 - 3 / 10)) = max 0 ((z : ℚ) / 100 - 3 / 10) := by
  rcases le_total ((z : ℚ) / 100 - 3 / 10) 0 with h | h
  · rw [max_eq_left h, round2_zero]
  · rw [max_eq_right h]
    have he : (z : ℚ) / 100 - 3 / 10 = ((z - 30 : ℤ) : ℚ) / 100 := by push_cast; ring
    rw [he, round2_int_div_100]

/-- Claim C2 (confirmed): for a signal labeled BUY with a known entry
reference whose valid take-profits all lie strictly below that reference
and whose stop-loss is strictly above it or absent, the Setup Corrector
returns direction SELL, the pre-correction confidence minus exactly 0.30
floored at 0, and a non-empty corrective note; mirror-image for SELL.
The pre-correction confidence is a two-decimal value (`z / 100`), as every
confidence entering the corrector is, the confidence model having rounded
it. -/
theorem setup_direction_flip (d d' : String) (es emin emax sl : Option ℚ)
    (tps : List ℚ) (conf : ℚ) (r : ℚ) (z : ℤ)
    (hr : pyEntryRef es emin emax = some r)
    (hvt : validTps tps ≠ [])
    (hconf : conf = (z : ℚ) / 100)
    (hcase :
      (d = "BUY" ∧ d' = "SELL" ∧ (∀ tp ∈ validTps tps, tp < r) ∧
        (sl = none ∨ ∃ v, sl = some v ∧ r < v)) ∨
      (d = "SELL" ∧ d' = "BUY" ∧ (∀ tp ∈ validTps tps, r < tp) ∧
        (sl = none ∨ ∃ v, sl = some v ∧ v < r))) :
    (validateAndCorrectSetup (some d) es emin emax sl tps conf).1 = some d' ∧
    (validateAndCorrectSetup (some d) es emin emax sl tps conf).2.1 =
      max 0 (conf - 3 / 10) ∧
    (validateAndCorrectSetup (some d) es emin emax sl tps conf).2.2 ≠ "" := by
  rcases hcase with ⟨hd, hd', htp, hsl⟩ | ⟨hd, hd', htp, hsl⟩
  · subst hd hd'
    have ha : tpsAbove tps r = 0 := by
      rw [tpsAbove, List.countP_eq_zero]
      intro tp htpmem
      simpa using lt_asymm (htp tp htpmem)
    have hb : 0 < tpsBelow tps r := by
      rw [tpsBelow, List.countP_eq_length.mpr]
      · exact List.length_pos.mpr hvt
      · intro tp htpmem
        simpa using htp tp htpmem
    simp only [validateAndCorrectSetup, hr, optStrTruthy, ha, hb]
    norm_num
    rw [if_neg (by decide), if_neg hvt]
    have hslcond : optQTruthy sl = true ∧ r < sl.getD 0 ∨ optQTruthy sl = false := by
      rcases hsl with h | ⟨v, hv, hrv⟩
      · right; simp [h, optQTruthy]
      · by_cases hv0 : v = 0
        · right; simp [hv, hv0, optQTruthy]
        · refine Or.inl ⟨by simp [hv, optQTruthy, hv0], by simpa [hv] using hrv⟩
    rw [if_pos hslcond]
    refine ⟨rfl, ?_, by simp⟩
    rw [hconf, round2_sub_30_floored]
  · subst hd hd'
    have hb : tpsBelow tps r = 0 := by
      rw [tpsBelow, List.countP_eq_zero]
      intro tp htpmem
      simpa using lt_asymm (htp tp htpmem)
    have ha : 0 < tpsAbove tps r := by
      rw [tpsAbove, List.countP_eq_length.mpr]
      · exact List.length_pos.mpr hvt
      · intro tp htpmem
        simpa using htp tp htpmem
    simp only [validateAndCorrectSetup, hr, optStrTruthy, ha, hb]
    norm_num
    rw [if_neg (by decide), if_neg hvt]
    have hslcond : optQTruthy sl = true ∧ sl.getD 0 < r ∨ optQTruthy sl = false := by
      rcases hsl with h | ⟨v, hv, hrv⟩
      · right; simp [h, optQTruthy]
      · by_cases hv0 : v = 0
        · right; simp [hv, hv0, optQTruthy]
        · refine Or.inl ⟨by simp [hv, optQTruthy, hv0], by simpa [hv] using hrv⟩
    rw [if_pos hslcond]
    rw [if_neg (by decide : ¬ ("SELL" = "BUY"))]
    refine ⟨rfl, ?_, by simp⟩
    rw [hconf, round2_sub_30_floored]

/-- Claim C1 (amended, proved): with a known direction and entry
reference, take-profits on both sides of the reference zero the
confidence only when the count on the direction's favoured side does not
strictly exceed the count on the other side (for BUY: above ≤ below; for
SELL: below ≤ above); the stop-loss and the other fields are irrelevant
to this branch. -/
theorem setup_contradiction_zero (d : String) (es emin emax sl : Option ℚ)
    (tps : List ℚ) (conf r : ℚ)
    (hr : pyEntryRef es emin emax = some r)
    (ha : 1 ≤ tpsAbove tps r) (hb : 1 ≤ tpsBelow tps r)
    (hbal : (d = "BUY" ∧ tpsAbove tps r ≤ tpsBelow tps r) ∨
            (d = "SELL" ∧ tpsBelow tps r ≤ tpsAbove tps r)) :
    (validateAndCorrectSetup (some d) es emin emax sl tps conf).2.1 = 0 := by
  have hvt : validTps tps ≠ [] := by
    intro hc
    rw [tpsAbove, hc] at ha
    simp at ha
  rcases hbal with ⟨hd, hab⟩ | ⟨hd, hab⟩ <;> subst hd
  · simp only [validateAndCorrectSetup, hr, optStrTruthy]
    norm_num
    rw [if_neg (by decide), if_pos ⟨hab, hvt⟩,
      if_neg (by omega : ¬ (0 < tpsBelow tps r ∧ tpsAbove tps r = 0)),
      if_pos ⟨by omega, by omega⟩]
    exact round2_zero
  · simp only [validateAndCorrectSetup, hr, optStrTruthy]
    norm_num
    rw [if_neg (by decide), if_neg (by decide), if_pos ⟨hab, hvt⟩,
      if_neg (by omega : ¬ (0 < tpsAbove tps r ∧ tpsBelow tps r = 0)),
      if_pos ⟨by omega, by omega⟩]
    exact round2_zero

/-- Appending a record under a fresh key makes it retrievable. -/
theorem lookupStore_append_self (st : Store) (key : String) (e : StoredSignal)
    (h : lookupStore st key = none) :
    lookupStore (st ++ [(key, e)]) key = some e := by
  have hf : st.find? (fun p => p.1 = key) = none := by
    unfold lookupStore at h
    cases hF : st.find? (fun p => p.1 = key) with
    | none => rfl
    | some q => rw [hF] at h; simp at h
  unfold lookupStore
  rw [List.find?_append, hf]
  simp

/-- Claim C5 (confirmed): on any store state, admitting a signal under a
fresh message-id key returns `True` and stores a pending record stamped
with the admission time; a second admit that shares the key returns
`False` and returns the store completely unchanged — in particular this
holds on any later store state still containing the key, so the stored
entry (signal, status, timestamps) is never mutated by a rejected
admission. -/
theorem addSignal_dedup_no_mutation (st : Store) (s1 s2 : Signal) (t1 t2 : ℚ)
    (hkey : s1.message_id = s2.message_id)
    (hfresh : lookupStore st (toString s1.message_id) = none) :
    (addSignal st s1 t1).1 = true ∧
    lookupStore (addSignal st s1 t1).2 (toString s1.message_id) =
      some { signal := s1, status := "pending", created_at := t1,
             acknowledged_at := none } ∧
    addSignal (addSignal st s1 t1).2 s2 t2 = (false, (addSignal st s1 t1).2) ∧
    (∀ st' : Store, (lookupStore st' (toString s2.message_id)).isSome = true →
      addSignal st' s2 t2 = (false, st')) := by
  have h1 : addSignal st s1 t1 =
      (true, st ++ [(toString s1.message_id,
        { signal := s1, status := "pending", created_at := t1,
          acknowledged_at := none })]) := by
    simp [addSignal, hfresh]
  refine ⟨by rw [h1], ?_, ?_, ?_⟩
  · rw [h1]
    exact lookupStore_append_self st _ _ hfresh
  · have h2 : lookupStore (addSignal st s1 t1).2 (toString s2.message_id) =
        some { signal := s1, status := "pending", created_at := t1,
               acknowledged_at := none } := by
      rw [← hkey, h1]
      exact lookupStore_append_self st _ _ hfresh
    set st1 := (addSignal st s1 t1).2 with hst1
    simp [addSignal, h2]
  · intro st' h
    simp [addSignal, h]

/-- Every signal returned by the pending read is the signal of some entry
of the store: the read never invents entries. -/
theorem getPendingSignals_sourced (st : Store) (sym : Option String) (x : Signal)
    (hx : x ∈ getPendingSignals st sym) : ∃ p ∈ st, p.2.signal = x := by
  unfold getPendingSignals at hx
  rcases List.mem_filterMap.mp hx with ⟨p, hp, hfp⟩
  refine ⟨p, hp, ?_⟩
  by_cases h1 : p.2.status != "pending"
  · simp [h1] at hfp
  · by_cases h2 : optStrTruthy sym && p.2.signal.symbol != sym.getD ""
    · simp [h1, h2] at hfp
    · simp [h1, h2] at hfp
      exact hfp

/-- Filtering a store cannot make an absent key present. -/
theorem lookupStore_filter_none (st : Store) (key : String)
    (q : String × StoredSignal → Bool)
    (h : lookupStore st key = none) :
    lookupStore (st.filter q) key = none := by
  have hf : st.find? (fun p => p.1 = key) = none := by
    cases hF : st.find? (fun p => p.1 = key) with
    | none => rfl
    | some q2 => unfold lookupStore at h; rw [hF] at h; simp at h
  have hall := List.find?_eq_none.mp hf
  unfold lookupStore
  rw [List.find?_eq_none.mpr fun p hp => hall p (List.mem_of_mem_filter hp)]
  rfl

/-- Claim C6 (amended, proved): an entry admitted at time `T` under a
fresh key is removed by a sweep performed at `T + maxAge + eps` for any
`eps > 0` (its age then strictly exceeds `maxAge`), and afterwards the
pending-signals read cannot return it, since that read only reports
entries present in the store.  Expiry is enforced by the sweep alone —
see the counterexample for the read-time half of the original claim. -/
theorem store_expiry_sweep_only (st : Store) (s : Signal) (T maxAge eps : ℚ)
    (sym : Option String)
    (hfresh : lookupStore st (toString s.message_id) = none)
    (heps : 0 < eps) :
    lookupStore (cleanupOldSignals (addSignal st s T).2 (T + maxAge + eps) maxAge).2
      (toString s.message_id) = none ∧
    ∀ x ∈ getPendingSignals
        (cleanupOldSignals (addSignal st s T).2 (T + maxAge + eps) maxAge).2 sym,
      ∃ p ∈ (cleanupOldSignals (addSignal st s T).2 (T + maxAge + eps) maxAge).2,
        p.2.signal = x := by
  have h1 : (addSignal st s T).2 = st ++ [(toString s.message_id,
      { signal := s, status := "pending", created_at := T,
        acknowledged_at := none })] := by
    simp [addSignal, hfresh]
  constructor
  · rw [h1]
    unfold cleanupOldSignals
    simp only [List.filter_append, List.filter_cons, List.filter_nil]
    rw [if_neg (by simp; linarith)]
    rw [List.append_nil]
    exact lookupStore_filter_none st _ _ hfresh
  · intro x hx
    exact getPendingSignals_sourced _ sym x hx

/-- Claim C10 (confirmed): the deduplication key is the stringified
message id alone.  Two signals with the same message id but different
source channels collide: after the first is admitted, admitting the
second returns `False` and leaves the store unchanged, so the second
signal is never stored. -/
theorem dedup_key_ignores_channel (st : Store) (s1 s2 : Signal) (t1 t2 : ℚ)
    (hid : s1.message_id = s2.message_id)
    (hch : s1.channel_username ≠ s2.channel_username)
    (hfresh : lookupStore st (toString s1.message_id) = none)
    (habsent : ∀ p ∈ st, p.2.signal ≠ s2) :
    (addSignal st s1 t1).1 = true ∧
    addSignal (addSignal st s1 t1).2 s2 t2 = (false, (addSignal st s1 t1).2) ∧
    ∀ p ∈ (addSignal st s1 t1).2, p.2.signal ≠ s2 := by
  have h1 : addSignal st s1 t1 =
      (true, st ++ [(toString s1.message_id,
        { signal := s1, status := "pending", created_at := t1,
          acknowledged_at := none })]) := by
    simp [addSignal, hfresh]
  refine ⟨by rw [h1], ?_, ?_⟩
  · have h2 : lookupStore (addSignal st s1 t1).2 (toString s2.message_id) =
        some { signal := s1, status := "pending", created_at := t1,
               acknowledged_at := none } := by
      rw [← hid, h1]
      exact lookupStore_append_self st _ _ hfresh
    set st1 := (addSignal st s1 t1).2 with hst1
    simp [addSignal, h2]
  · intro p hp
    rw [h1] at hp
    rcases List.mem_append.mp hp with hmem | hmem
    · exact habsent p hmem
    · have hpe : p = (toString s1.message_id,
          { signal := s1, status := "pending", created_at := t1,
            acknowledged_at := none }) := by simpa using hmem
      rw [hpe]
      intro hc
      exact hch (congrArg Signal.channel_username hc)

/-- Claim C4 (amended, proved): for a signal with symbol, a valid
direction and a usable entry, `validate_signal` succeeds if and only if
the stop-loss (when truthy) and every take-profit lie on the correct side
of the entry average and the entry range (when truthy) has min < max.
Consequently the wrong-side stop-loss and wrong-side take-profit checks
DO raise (they fail the validate call, which the extractor catches and
records as a note), and only the take-profit-ladder monotonicity check is
warning-only: it does not appear in the right-hand side, so a
non-monotonic ladder on the correct side of entry passes. -/
theorem validator_wrong_side_raises (s : Signal) (avg : ℚ)
    (hsym : s.symbol ≠ "")
    (hdir : s.direction = "BUY" ∨ s.direction = "SELL")
    (havg : s.entryAverage = some avg) :
    validateSignal s = .ok true ↔
      ((optQTruthy s.stop_loss = true →
          (s.direction = "BUY" → s.stop_loss.getD 0 < avg) ∧
          (s.direction = "SELL" → avg < s.stop_loss.getD 0)) ∧
       (∀ tp ∈ s.take_profits,
          (s.direction = "BUY" → avg < tp) ∧
          (s.direction = "SELL" → tp < avg)) ∧
       (optQTruthy s.entry_price_min = true → optQTruthy s.entry_price_max = true →
          s.entry_price_min.getD 0 < s.entry_price_max.getD 0)) := by
  have hent : s.hasEntry = true := by
    unfold Signal.hasEntry
    unfold Signal.entryAverage at havg
    cases hep : s.entry_price with
    | some p => simp
    | none =>
      rw [hep] at havg
      cases hmin : s.entry_price_min with
      | none => rw [hmin] at havg; simp at havg
      | some lo =>
        cases hmax : s.entry_price_max with
        | none => rw [hmin, hmax] at havg; simp at havg
        | some hi => simp [hmin, hmax]
  have hdirne : s.direction ≠ "" := by
    rcases hdir with h | h <;> rw [h] <;> decide
  have hreq : validateRequiredFields s = .ok () := by
    unfold validateRequiredFields
    rw [if_neg hsym, if_neg hdirne, if_neg (not_not_intro hdir),
      if_neg (not_not_intro hent)]
  have hplx : validatePriceLogic s = .ok () ↔
      ((optQTruthy s.stop_loss = true →
          (s.direction = "BUY" → s.stop_loss.getD 0 < avg) ∧
          (s.direction = "SELL" → avg < s.stop_loss.getD 0)) ∧
       (∀ tp ∈ s.take_profits,
          (s.direction = "BUY" → avg < tp) ∧
          (s.direction = "SELL" → tp < avg))) := by
    unfold validatePriceLogic
    rw [havg]
    dsimp only
    split_ifs with h1 h2 h3
    · refine iff_of_false (by simp) (fun hR => ?_)
      rcases h1 with ⟨ht, hb, hle⟩
      have := (hR.1 ht).1 hb
      linarith
    · refine iff_of_false (by simp) (fun hR => ?_)
      rcases h2 with ⟨ht, hse, hle⟩
      have := (hR.1 ht).2 hse
      linarith
    · refine iff_of_false (by simp) (fun hR => ?_)
      rcases Option.isSome_iff_exists.mp h3 with ⟨tp, htpfind⟩
      have htpmem := List.mem_of_find?_eq_some htpfind
      have hpred := List.find?_some htpfind
      rcases Bool.or_eq_true _ _ |>.mp hpred with hcase | hcase
      · rcases Bool.and_eq_true _ _ |>.mp hcase with ⟨hbuy, hle⟩
        have hb : s.direction = "BUY" := by simpa using hbuy
        have hle2 : tp ≤ avg := by simpa using hle
        have := (hR.2 tp htpmem).1 hb
        linarith
      · rcases Bool.and_eq_true _ _ |>.mp hcase with ⟨hsell, hge⟩
        have hse : s.direction = "SELL" := by simpa using hsell
        have hge2 : avg ≤ tp := by simpa using hge
        have := (hR.2 tp htpmem).2 hse
        linarith
    · refine iff_of_true rfl ⟨?_, ?_⟩
      · intro ht
        constructor
        · intro hb
          have : ¬ (avg ≤ s.stop_loss.getD 0) := fun hle => h1 ⟨ht, hb, hle⟩
          exact not_le.mp this
        · intro hse
          have : ¬ (s.stop_loss.getD 0 ≤ avg) := fun hle => h2 ⟨ht, hse, hle⟩
          exact not_le.mp this
      · intro tp htp
        have hnone := Option.not_isSome_iff_eq_none.mp h3
        have hpred := List.find?_eq_none.mp hnone tp htp
        constructor
        · intro hb
          by_contra hc
          exact hpred (by simp [hb, not_lt.mp hc])
        · intro hse
          by_contra hc
          exact hpred (by simp [hse, not_lt.mp hc])
  have herx : validateEntryRange s = .ok () ↔
      (optQTruthy s.entry_price_min = true → optQTruthy s.entry_price_max = true →
        s.entry_price_min.getD 0 < s.entry_price_max.getD 0) := by
    unfold validateEntryRange
    split_ifs with h
    · refine iff_of_false (by simp) (fun hR => ?_)
      rcases h with ⟨hm, hM, hle⟩
      have := hR hm hM
      linarith
    · refine iff_of_true rfl (fun hm hM => ?_)
      have : ¬ (s.entry_price_max.getD 0 ≤ s.entry_price_min.getD 0) :=
        fun hle => h ⟨hm, hM, hle⟩
      exact not_le.mp this
  unfold validateSignal
  rw [hreq]
  cases hpl : validatePriceLogic s with
  | error e =>
    refine iff_of_false (by simp) (fun hR => ?_)
    have : validatePriceLogic s = .ok () := hplx.mpr ⟨hR.1, hR.2.1⟩
    rw [hpl] at this
    exact absurd this (by simp)
  | ok u =>
    cases u
    cases her : validateEntryRange s with
    | error e =>
      refine iff_of_false (by simp) (fun hR => ?_)
      have : validateEntryRange s = .ok () := herx.mpr hR.2.2
      rw [her] at this
      exact absurd this (by simp)
    | ok u2 =>
      cases u2
      refine iff_of_true rfl ?_
      have hplok := hplx.mp hpl
      exact ⟨hplok.1, hplok.2, herx.mp her⟩

/-- Claim C7 (amended, proved): for every field set and every truthy
(non-empty) channel name, given non-negative configured weights, the
code's confidence score equals the spec's sum — the per-field weights of
the present fields, full take-profit weight for ≥ 2 values, half for
exactly 1, none for 0, plus channel weight times the per-channel
multiplier (1.0 for unknown channels) — rounded to two decimals; and
under the claim's assumption that those weights plus the channel bonus
total at most 1.0, the score lies in [0, 1].  For a falsy channel name
the code adds no channel bonus at all, so the claimed formula fails there
whenever the channel weight is positive: see the counterexample. -/
theorem confidence_formula_and_bounds (w : ConfidenceWeights)
    (cc : List (String × ℚ)) (f : ExtractedFields) (channel : String)
    (hch : channel ≠ "")
    (hws : 0 ≤ w.symbol) (hwd : 0 ≤ w.direction) (hwe : 0 ≤ w.entry)
    (hwsl : 0 ≤ w.stop_loss) (hwtp : 0 ≤ w.take_profit)
    (hwcc : 0 ≤ w.channel_confidence)
    (hmult : 0 ≤ channelMultiplier cc channel)
    (hsum : w.symbol + w.direction + w.entry + w.stop_loss + w.take_profit +
      w.channel_confidence * channelMultiplier cc channel ≤ 1) :
    calcConfidence w cc f channel =
      round2 (specConfidenceScore w cc f channel) ∧
    0 ≤ calcConfidence w cc f channel ∧
    calcConfidence w cc f channel ≤ 1 := by
  have haux1 : ∀ (c : Prop) [Decidable c] (a b : ℚ),
      (if c then a + b else a) = a + (if c then b else 0) := by
    intro c hc a b
    split_ifs <;> simp
  have haux2 : ∀ (c : Prop) [Decidable c] (a b b' : ℚ),
      (if c then a + b else a + b') = a + (if c then b else b') := by
    intro c hc a b b'
    split_ifs <;> simp
  have htp : (if f.take_profits ≠ [] then
        (if 2 ≤ f.take_profits.length then w.take_profit
         else w.take_profit * (1 / 2))
      else (0 : ℚ)) =
      (if 2 ≤ f.take_profits.length then w.take_profit
       else if f.take_profits.length = 1 then w.take_profit / 2 else 0) := by
    match hl : f.take_profits with
    | [] => simp
    | [x] =>
      norm_num
      ring
    | x :: y :: l =>
      have h2 : 2 ≤ (x :: y :: l).length := by simp
      simp [h2]
  have hchannel : (if 0 < w.channel_confidence ∧ channel ≠ "" then
        w.channel_confidence * channelMultiplier cc channel else 0) =
      w.channel_confidence * channelMultiplier cc channel := by
    rcases eq_or_lt_of_le hwcc with hcc | hcc
    · rw [if_neg (by rw [← hcc]; simp), ← hcc, zero_mul]
    · rw [if_pos ⟨hcc, hch⟩]
  have heq : calcConfidence w cc f channel =
      round2 (specConfidenceScore w cc f channel) := by
    simp only [calcConfidence, specConfidenceScore]
    congr 1
    rw [haux2, haux1, haux1, haux1, haux1, haux1, zero_add, htp, hchannel]
  have b1 : 0 ≤ (if optStrTruthy f.symbol then w.symbol else (0:ℚ)) ∧
      (if optStrTruthy f.symbol then w.symbol else (0:ℚ)) ≤ w.symbol := by
    split_ifs <;> exact ⟨by linarith, by linarith⟩
  have b2 : 0 ≤ (if optStrTruthy f.direction then w.direction else (0:ℚ)) ∧
      (if optStrTruthy f.direction then w.direction else (0:ℚ)) ≤ w.direction := by
    split_ifs <;> exact ⟨by linarith, by linarith⟩
  have b3 : 0 ≤ (if optQTruthy f.entry_price ||
        (optQTruthy f.entry_price_min && optQTruthy f.entry_price_max) then
        w.entry else (0:ℚ)) ∧
      (if optQTruthy f.entry_price ||
        (optQTruthy f.entry_price_min && optQTruthy f.entry_price_max) then
        w.entry else (0:ℚ)) ≤ w.entry := by
    split_ifs <;> exact ⟨by linarith, by linarith⟩
  have b4 : 0 ≤ (if optQTruthy f.stop_loss then w.stop_loss else (0:ℚ)) ∧
      (if optQTruthy f.stop_loss then w.stop_loss else (0:ℚ)) ≤ w.stop_loss := by
    split_ifs <;> exact ⟨by linarith, by linarith⟩
  have b5 : 0 ≤ (if 2 ≤ f.take_profits.length then w.take_profit
        else if f.take_profits.length = 1 then w.take_profit / 2 else (0:ℚ)) ∧
      (if 2 ≤ f.take_profits.length then w.take_profit
        else if f.take_profits.length = 1 then w.take_profit / 2 else (0:ℚ)) ≤
        w.take_profit := by
    split_ifs <;> exact ⟨by linarith, by linarith⟩
  have hmul := mul_nonneg hwcc hmult
  have hlo : 0 ≤ specConfidenceScore w cc f channel := by
    unfold specConfidenceScore
    linarith [b1.1, b2.1, b3.1, b4.1, b5.1]
  have hhi : specConfidenceScore w cc f channel ≤ 1 := by
    unfold specConfidenceScore
    linarith [b1.2, b2.2, b3.2, b4.2, b5.2]
  exact ⟨heq, heq ▸ round2_nonneg hlo, heq ▸ round2_le_one hhi⟩

/-- The validation-and-gate tail of the orchestrator treats two signals
that differ only in their `extracted_at` stamp identically, up to that
stamp. -/
theorem finishSignal_erase (cfg : ExtractorConfig) (conf : ℚ)
    (mid : Int) (ch : String) (ts : ℚ) (sym dir : String)
    (ep emin emax sl : Option ℚ) (tps : List ℚ) (cs : ℚ) (raw notes : String)
    (x y : ℚ) :
    (finishSignal cfg conf
        ⟨mid, ch, ts, sym, dir, ep, emin, emax, sl, tps, cs, raw, notes, x⟩).map
      eraseExtractedAt =
    (finishSignal cfg conf
        ⟨mid, ch, ts, sym, dir, ep, emin, emax, sl, tps, cs, raw, notes, y⟩).map
      eraseExtractedAt := by
  have hv : validateSignal
      ⟨mid, ch, ts, sym, dir, ep, emin, emax, sl, tps, cs, raw, notes, x⟩ =
      validateSignal
      ⟨mid, ch, ts, sym, dir, ep, emin, emax, sl, tps, cs, raw, notes, y⟩ := rfl
  simp only [finishSignal, hv]
  cases hval : validateSignal
      ⟨mid, ch, ts, sym, dir, ep, emin, emax, sl, tps, cs, raw, notes, y⟩ <;>
    split_ifs <;> rfl

/-- Claim C8 (amended, proved): extraction is deterministic in all Signal
fields except `extracted_at` — two runs on identical text, message id,
channel and timestamp agree on every extracted field, the confidence and
the notes, whatever the wall-clock times of the two calls; only
`extracted_at`, stamped from the clock at construction, differs. -/
theorem extractSignal_deterministic_mod_extracted_at (cfg : ExtractorConfig)
    (pm : PatternMatcherModel) (text : String) (message_id : Int)
    (channel_username : String) (timestamp n1 n2 : ℚ) :
    (extractSignal cfg pm text message_id channel_username timestamp n1).map
      eraseExtractedAt =
    (extractSignal cfg pm text message_id channel_username timestamp n2).map
      eraseExtractedAt := by
  simp only [extractSignal]
  apply finishSignal_erase

/-- Evaluation of the orchestrator on a message matching no patterns
under the all-zero weight configuration: extraction succeeds (threshold
0) and stamps `extracted_at` with the clock value. -/
theorem extractSignal_noMatches_eval (n : ℚ) :
    extractSignal permissiveConfig pmNoMatches "hello" 1 "ch" 0 n =
    Except.ok (⟨1, "ch", 0, "", "", none, none, none, none, [], 0, "hello",
      "Validation warning: Missing required field: symbol", n⟩ : Signal) := by
  have h0 : round2 (0 : ℚ) = 0 := round2_zero
  norm_num [extractSignal, finishSignal, resolvePipTakeProfits, calcConfidence,
    channelMultiplier, validateAndCorrectSetup, pyEntryRef, optQTruthy,
    optStrTruthy, validateSignal, validateRequiredFields,
    permissiveConfig, pmNoMatches, h0]
  rfl

/-- Claim C8 (counterexample): two extraction calls with identical text,
message id, channel and timestamp both succeed but are not bit-identical
over all Signal fields — `extracted_at` defaults to `datetime.now()` in
the source, so the two runs (clock reads 0 and 1 here) differ in that
field. -/
theorem extraction_not_bit_identical_cex :
    (extractSignal permissiveConfig pmNoMatches "hello" 1 "ch" 0 0).toOption.isSome
      = true ∧
    extractSignal permissiveConfig pmNoMatches "hello" 1 "ch" 0 0 ≠
      extractSignal permissiveConfig pmNoMatches "hello" 1 "ch" 0 1 := by
  constructor
  · rw [extractSignal_noMatches_eval]
    rfl
  · rw [extractSignal_noMatches_eval, extractSignal_noMatches_eval]
    intro h
    have h2 := congrArg Signal.extracted_at (Except.ok.inj h)
    norm_num at h2

/-- Claim C3 (code bug, evaluated at the failing input): on the message
`"TP 30-100pips"` the pip extractor yields `(30, 100)` and the conversion
routine itself would produce `[2003.0, 2010.0]` from entry 2000 for BUY on
XAUUSD exactly as the spec says, but the orchestrator's resolution step
produces no take-profits at all for a single-entry message: the line
`entry_ref = entry_single or (entry_min + entry_max) / 2 if entry_min and entry_max else None`
parses as `(...) if (entry_min and entry_max) else None`, so `entry_ref`
is `None` whenever the entry is a single price and the conversion is
skipped. -/
theorem pip_tp_resolution_at_failing_input :
    extractTakeProfitsPips "TP 30-100pips" = some (30, some 100) ∧
    resolvePipTakeProfits (some 2000) none none (some "BUY") (some "XAUUSD")
      [] (some (30, some 100)) = [] ∧
    calcTpFromPips 2000 "BUY" (30, some 100) (some "XAUUSD") = [2003, 2010] := by
  refine ⟨by decide, by decide, ?_⟩
  have h1 : round2 (2003 : ℚ) = 2003 := round2_two_decimals 200300 (by norm_num)
  have h2 : round2 (2010 : ℚ) = 2010 := round2_two_decimals 201000 (by norm_num)
  norm_num [calcTpFromPips, getPipValue, optStrTruthy, h1, h2]

/-- Claim C1 (counterexample): a BUY signal with entry reference 100 and
take-profits 90, 110, 120 has take-profits strictly on both sides of the
entry, yet the Setup Corrector leaves the confidence at 0.8 instead of
setting it to 0, because the majority of the take-profits sit on the
favoured side (`tps_above > tps_below` makes `tps_correct` true and the
whole correction block is skipped). -/
theorem contradiction_zeroing_not_unconditional :
    ((90 : ℚ) < 100 ∧ (100 : ℚ) < 110 ∧ (100 : ℚ) < 120) ∧
    validateAndCorrectSetup (some "BUY") (some 100) none none none
      [90, 110, 120] (8 / 10) = (some "BUY", 8 / 10, "") := by
  refine ⟨by norm_num, ?_⟩
  norm_num [validateAndCorrectSetup, pyEntryRef, optQTruthy, optStrTruthy,
    tpsAbove, tpsBelow, validTps, List.countP, List.countP.go]
  exact fun _ => round2_two_decimals 80 (by norm_num)

/-- Witness for C1's amended theorem at a concrete input: BUY, entry 100,
take-profits 110, 90, 80 (one above, two below). -/
theorem setup_contradiction_zero_witness :
    (validateAndCorrectSetup (some "BUY") (some 100) none none none
      [110, 90, 80] (8 / 10)).2.1 = 0 := by
  apply setup_contradiction_zero "BUY" (some 100) none none none [110, 90, 80]
      (8 / 10) 100
  · norm_num [pyEntryRef, optQTruthy]
  · norm_num [tpsAbove, validTps, List.countP, List.countP.go]
  · norm_num [tpsBelow, validTps, List.countP, List.countP.go]
  · refine Or.inl ⟨rfl, ?_⟩
    norm_num [tpsAbove, tpsBelow, validTps, List.countP, List.countP.go]

/-- Witness for C2 at the spec's own example: BUY, entry 100, stop-loss
105 (above entry), take-profits all below, confidence 0.8 → SELL at 0.5. -/
theorem setup_direction_flip_witness :
    (validateAndCorrectSetup (some "BUY") (some 100) none none (some 105)
      [90] (8 / 10)).1 = some "SELL" ∧
    (validateAndCorrectSetup (some "BUY") (some 100) none none (some 105)
      [90] (8 / 10)).2.1 = max 0 (8 / 10 - 3 / 10) ∧
    (validateAndCorrectSetup (some "BUY") (some 100) none none (some 105)
      [90] (8 / 10)).2.2 ≠ "" := by
  apply setup_direction_flip "BUY" "SELL" (some 100) none none (some 105)
      [90] (8 / 10) 100 80
  · norm_num [pyEntryRef, optQTruthy]
  · norm_num [validTps]
  · norm_num
  · refine Or.inl ⟨rfl, rfl, ?_, Or.inr ⟨105, rfl, by norm_num⟩⟩
    intro tp htp
    simp [validTps] at htp
    subst htp
    norm_num

/-- Claim C4 (counterexample): a BUY signal with entry 100 and stop-loss
105 — no missing mandatory field and no entry range at all — makes
`validate_signal` fail with the wrong-side stop-loss error, refuting the
claim that only missing mandatory fields and a bad entry range can fail
the validate call. -/
theorem validator_raises_on_wrong_side_sl_cex :
    sigBuyWrongSideSL.stop_loss = some 105 ∧
    sigBuyWrongSideSL.entry_price = some 100 ∧
    validateSignal sigBuyWrongSideSL =
      Except.error "BUY signal: Stop loss should be below entry" := by
  refine ⟨rfl, rfl, ?_⟩
  norm_num [validateSignal, validateRequiredFields, validatePriceLogic,
    validateEntryRange, Signal.hasEntry, Signal.entryAverage, optQTruthy,
    sigBuyWrongSideSL]
  rfl

/-- Witness for C4's amended theorem: a BUY signal whose ladder
120, 110 is non-monotonic but on the correct side, with a correct
stop-loss, passes validation (the monotonicity check only warns). -/
theorem validator_wrong_side_raises_witness :
    validateSignal sigBuyNonMonotonicTPs = Except.ok true := by
  apply (validator_wrong_side_raises sigBuyNonMonotonicTPs 100
    (by decide)
    (Or.inl rfl)
    (by norm_num [Signal.entryAverage, sigBuyNonMonotonicTPs])).mpr
  refine ⟨?_, ?_, ?_⟩
  · intro _
    exact ⟨fun _ => by norm_num [sigBuyNonMonotonicTPs, optQTruthy],
           fun hc => by simp [sigBuyNonMonotonicTPs] at hc⟩
  · intro tp htp
    simp [sigBuyNonMonotonicTPs] at htp
    rcases htp with h | h <;>
      exact ⟨fun _ => by rw [h]; norm_num,
             fun hc => by simp [sigBuyNonMonotonicTPs] at hc⟩
  · intro hm
    simp [sigBuyNonMonotonicTPs, optQTruthy] at hm

/-- Witness for C5 on the empty store with two signals sharing message
id 7. -/
theorem addSignal_dedup_witness :
    (addSignal [] sigStoreA 1).1 = true ∧
    lookupStore (addSignal [] sigStoreA 1).2 (toString sigStoreA.message_id) =
      some { signal := sigStoreA, status := "pending", created_at := 1,
             acknowledged_at := none } ∧
    addSignal (addSignal [] sigStoreA 1).2 sigStoreB 2 =
      (false, (addSignal [] sigStoreA 1).2) := by
  have h := addSignal_dedup_no_mutation [] sigStoreA sigStoreB 1 2 rfl rfl
  exact ⟨h.1, h.2.1, h.2.2.1⟩

/-- Claim C6 (counterexample to the read-time half): the pending read
performs no age check — a pending entry admitted at time 0 whose age at
read time exceeds any maximum age (here 1) is still returned, because
`get_pending_signals` filters by status and symbol only and never
consults the clock. -/
theorem store_read_returns_expired_cex :
    (1 : ℚ) < 100 - 0 ∧
    getPendingSignals
      [("7", { signal := sigStoreA, status := "pending", created_at := 0,
               acknowledged_at := none })] none = [sigStoreA] := by
  refine ⟨by norm_num, ?_⟩
  simp [getPendingSignals, optStrTruthy]

/-- Witness for C6's amended theorem: an entry admitted at 0 is gone
after a sweep at `0 + 24 + 1`. -/
theorem store_expiry_sweep_witness :
    lookupStore
      (cleanupOldSignals (addSignal [] sigStoreA 0).2 (0 + 24 + 1) 24).2
      (toString sigStoreA.message_id) = none :=
  (store_expiry_sweep_only [] sigStoreA 0 24 1 none rfl (by norm_num)).1

/-- Witness for C7 at the default weights and the Nick Alpha field set. -/
theorem confidence_formula_and_bounds_witness :
    calcConfidence defaultWeights [] nickAlphaFields "nickalphatrader" =
      round2 (specConfidenceScore defaultWeights [] nickAlphaFields
        "nickalphatrader") ∧
    0 ≤ calcConfidence defaultWeights [] nickAlphaFields "nickalphatrader" ∧
    calcConfidence defaultWeights [] nickAlphaFields "nickalphatrader" ≤ 1 := by
  apply confidence_formula_and_bounds
  · decide
  · norm_num [defaultWeights]
  · norm_num [defaultWeights]
  · norm_num [defaultWeights]
  · norm_num [defaultWeights]
  · norm_num [defaultWeights]
  · norm_num [defaultWeights]
  · norm_num [channelMultiplier]
  · norm_num [defaultWeights, channelMultiplier]

/-- Claim C7 (counterexample): at a falsy (empty) channel name with a
positive configured channel weight (0.5 here, all field weights 0 and no
fields present), the code adds no channel bonus and scores 0, while the
claimed formula — channel weight times the multiplier, which defaults to
1.0 for unknown channels — gives 0.5; so the claimed equality fails for
this channel, refuting the claim's quantification over every channel. -/
theorem confidence_formula_fails_on_falsy_channel_cex :
    calcConfidence ⟨0, 0, 0, 0, 0, 1 / 2⟩ []
      ⟨none, none, none, none, none, none, []⟩ "" = 0 ∧
    round2 (specConfidenceScore ⟨0, 0, 0, 0, 0, 1 / 2⟩ []
      ⟨none, none, none, none, none, none, []⟩ "") = 1 / 2 ∧
    (0 : ℚ) ≠ 1 / 2 := by
  refine ⟨?_, ?_, by norm_num⟩
  · norm_num [calcConfidence, optStrTruthy, optQTruthy, round2_zero]
  · have h : round2 ((1 : ℚ) / 2) = 1 / 2 := round2_two_decimals 50 (by norm_num)
    norm_num [specConfidenceScore, channelMultiplier, optStrTruthy,
      optQTruthy, h]

/-- Witness for C10: signals 7@alpha and 7@beta collide on the empty
store. -/
theorem dedup_key_ignores_channel_witness :
    (addSignal [] sigStoreA 1).1 = true ∧
    addSignal (addSignal [] sigStoreA 1).2 sigStoreB 2 =
      (false, (addSignal [] sigStoreA 1).2) := by
  have h := dedup_key_ignores_channel [] sigStoreA sigStoreB 1 2 rfl
    (by simp [sigStoreA, sigStoreB]) rfl
    (by intro p hp; exact absurd hp (List.not_mem_nil p))
  exact ⟨h.1, h.2.1⟩

/-- Characters below the surrogate range round-trip through `Char.ofNat`. -/
theorem char_ofNat_toNat (m : Nat) (h : m < 55296) : (Char.ofNat m).toNat = m := by
  have hv : m.isValidChar := Or.inl h
  simp only [Char.ofNat, hv, dif_pos, Char.ofNatAux, Char.toNat]
  rfl

/-- ASCII uppercasing of a character is idempotent. -/
theorem pyUpperChar_idem (c : Char) : pyUpperChar (pyUpperChar c) = pyUpperChar c := by
  by_cases h : 97 ≤ c.toNat ∧ c.toNat ≤ 122
  · have h1 : pyUpperChar c = Char.ofNat (c.toNat - 32) := if_pos h
    have ht : (Char.ofNat (c.toNat - 32)).toNat = c.toNat - 32 :=
      char_ofNat_toNat _ (by omega)
    rw [h1, pyUpperChar, if_neg (by rw [ht]; omega)]
  · have h1 : pyUpperChar c = c := if_neg h
    rw [h1]
    exact h1

/-- ASCII uppercasing of a string is idempotent. -/
theorem pyUpper_idem (s : String) : pyUpper (pyUpper s) = pyUpper s := by
  have hf : pyUpperChar ∘ pyUpperChar = pyUpperChar := funext pyUpperChar_idem
  simp [pyUpper, List.map_map, hf]

/-- Claim C9 (amended, proved): symbol normalization is idempotent for
every alias map whose values are themselves fixed points of the
normalization — in particular for the built-in default map, whose values
all map to themselves.  For an arbitrary configured map the original
claim fails: see the counterexample. -/
theorem normalizeSymbol_idem_of_values_fixed (m : List (String × String))
    (hm : ∀ p ∈ m, normalizeSymbol m p.2 = p.2) (s : String) :
    normalizeSymbol m (normalizeSymbol m s) = normalizeSymbol m s := by
  unfold normalizeSymbol
  cases hE : lookupExact m s with
  | some v =>
    obtain ⟨p, hp, hps⟩ : ∃ p ∈ m, p.2 = v := by
      unfold lookupExact at hE
      cases hF : m.find? (fun p => p.1 = s) with
      | none => rw [hF] at hE; simp at hE
      | some p =>
        rw [hF] at hE
        exact ⟨p, List.mem_of_find?_eq_some hF, by simpa using hE⟩
    have := hm p hp
    rw [hps] at this
    simpa [normalizeSymbol] using this
  | none =>
    cases hC : lookupCI m s with
    | some v =>
      obtain ⟨p, hp, hps⟩ : ∃ p ∈ m, p.2 = v := by
        unfold lookupCI at hC
        cases hF : m.find? (fun p => pyUpper p.1 = pyUpper s) with
        | none => rw [hF] at hC; simp at hC
        | some p =>
          rw [hF] at hC
          exact ⟨p, List.mem_of_find?_eq_some hF, by simpa using hC⟩
      have := hm p hp
      rw [hps] at this
      simpa [normalizeSymbol] using this
    | none =>
      have hCnone : ∀ p ∈ m, ¬ (pyUpper p.1 = pyUpper s) := by
        intro p hp hcontra
        unfold lookupCI at hC
        cases hF : m.find? (fun p => pyUpper p.1 = pyUpper s) with
        | some q => rw [hF] at hC; simp at hC
        | none =>
          have := List.find?_eq_none.mp hF p hp
          simp [hcontra] at this
      have hE2 : lookupExact m (pyUpper s) = none := by
        unfold lookupExact
        rw [List.find?_eq_none.mpr]
        · rfl
        · intro p hp
          simp only [decide_eq_true_eq]
          intro hps
          exact hCnone p hp (by rw [hps, pyUpper_idem])
      have hC2 : lookupCI m (pyUpper s) = none := by
        unfold lookupCI
        rw [List.find?_eq_none.mpr]
        · rfl
        · intro p hp
          simp only [decide_eq_true_eq]
          intro hps
          rw [pyUpper_idem] at hps
          exact hCnone p hp hps
      rw [hE2, hC2, pyUpper_idem]

/-- Claim C9 (counterexample): with the configured alias map
A ↦ B, B ↦ C, normalizing "A" once gives "B" but normalizing the result
gives "C", so `normalize(normalize(s)) ≠ normalize(s)`. -/
theorem normalize_not_idempotent_cex :
    normalizeSymbol [("A", "B"), ("B", "C")]
        (normalizeSymbol [("A", "B"), ("B", "C")] "A") = "C" ∧
    normalizeSymbol [("A", "B"), ("B", "C")] "A" = "B" ∧
    ("C" : String) ≠ "B" := by
  refine ⟨by decide, by decide, by decide⟩

/-- Witness for C9's amended theorem on the default alias map. -/
theorem normalizeSymbol_idem_witness :
    normalizeSymbol defaultSymbolMapping
        (normalizeSymbol defaultSymbolMapping "gold") =
      normalizeSymbol defaultSymbolMapping "gold" :=
  normalizeSymbol_idem_of_values_fixed defaultSymbolMapping (by decide) "gold"

end TelegramSignals
